import Mathlib

/-!
Verification of the SEO-evaluation pipeline and the authentication wrappers
of the seoAI repository.

The evaluator (`src/lib/server/evaluator/index.js`) is an async orchestrator:
it resolves a configuration, fetches the scan result set and the
duplicate-detection context, then for every `(urlId, urlData)` entry runs the
four category checks and submits the resulting issue bundle to the sink
(`updateIssueDocument`), finally joining all submissions with `Promise.all`.

The JavaScript semantics that matter for the embedding:
* `Object.entries(scanResults).map(async ([urlId, urlData]) => { ... })`
  invokes each async callback synchronously; the callback body contains no
  `await` before the `updateIssueDocument(config, issues)` call, so the whole
  dispatch loop (the `config.urlId` mutation, the four check calls and the
  sink call of every entry) runs as one uninterrupted synchronous block, in
  entry order.  The only nondeterminism is the completion order of the sink
  promises, which we model as an explicit schedule (a list of indices).
* `Promise.all` rejects as soon as the first of its promises rejects, with
  that promise's reason; sibling promises are not cancelled and still settle.
* The `try/catch` logs the error and rethrows it unchanged.

External collaborators (`checkMetaData`, `checkBodyData`, `checkSocialData`,
`checkSchemaData`, `getScanCollection`, `getDataForDuplicateCheck`,
`updateIssueDocument`) are imported from sibling modules whose sources are
not shown; they are modelled as parameters (an environment record), with
opaque types for the category slices (`α`), the duplicate context (`δ`), the
issue results (`ι`) and the errors (`ε`).
-/

/-- The per-scan configuration object.  Its `urlId` field is absent at
creation and mutated once per URL iteration by the orchestrator. -/
structure ScanConfig where
  domain : String
  dateOfScan : String
  urlId : Option String
deriving Repr, DecidableEq

/-- Modelled from the spec: `getConfig` (the Config Resolver, imported from
`../../utils/config`, whose source is not shown) — "resolveConfig(domain,
dateOfScan) -> {domain, dateOfScan, urlId?}.  Pure, synchronous, no I/O". -/
def getConfig (domain dateOfScan : String) : ScanConfig :=
  { domain := domain, dateOfScan := dateOfScan, urlId := none }

/-- One entry of the scan result set: the four category slices of one URL. -/
structure UrlData (α : Type) where
  meta : α
  body : α
  social : α
  schema : α
deriving Repr, DecidableEq

/-- The issue bundle assembled for one URL: exactly the four category
results `meta`, `body`, `social`, `schema` (the JS `issues` object). -/
structure Issues (ι : Type) where
  meta : ι
  body : ι
  social : ι
  schema : ι
deriving Repr, DecidableEq

/-- One call of `updateIssueDocument`: the map key `urlId` of the entry that
made the call, the value of the (shared, mutated) configuration object at the
moment of the call, and the issue bundle passed along. -/
structure Submission (ι : Type) where
  urlId : String
  configAtCall : ScanConfig
  issues : Issues ι
deriving Repr, DecidableEq

/-- The external collaborators of `initiateEvaluation`, exactly as imported
by the source file.  The sink's outcome is a function of what it is handed,
so distinct submissions may succeed or fail independently. -/
structure EvalEnv (α δ ι ε : Type) where
  getScanCollection : String → String → Except ε (List (String × UrlData α))
  getDataForDuplicateCheck : String → String → Except ε δ
  checkMetaData : α → δ → ι
  checkBodyData : α → ι
  checkSocialData : α → ι
  checkSchemaData : α → ι
  updateIssueDocument : ScanConfig → Issues ι → Except ε Unit

instance {ε σ : Type} [DecidableEq ε] [DecidableEq σ] :
    DecidableEq (Except ε σ) := fun a b =>
  match a, b with
  | .ok x, .ok y =>
    if h : x = y then .isTrue (by rw [h]) else .isFalse (by simp [h])
  | .error x, .error y =>
    if h : x = y then .isTrue (by rw [h]) else .isFalse (by simp [h])
  | .ok _, .error _ => .isFalse (by simp)
  | .error _, .ok _ => .isFalse (by simp)

/-- Observable events of one run, in program order. -/
inductive Event (α δ ι ε : Type) where
  | fetchScanOk
  | fetchScanErr (e : ε)
  | fetchDupOk
  | fetchDupErr (e : ε)
  | checkMetaCall (urlId : String) (arg : α) (dup : δ)
  | checkBodyCall (urlId : String) (arg : α)
  | checkSocialCall (urlId : String) (arg : α)
  | checkSchemaCall (urlId : String) (arg : α)
  | sinkCall (urlId : String) (config : ScanConfig) (issues : Issues ι)
  | sinkSettle (urlId : String) (outcome : Except ε Unit)
  | resolved
  | rejected (e : ε)
deriving Repr, DecidableEq

/-- `true` exactly on check invocations and sink writes (the per-URL work). -/
def isWorkEvent {α δ ι ε : Type} : Event α δ ι ε → Bool
  | .checkMetaCall _ _ _ => true
  | .checkBodyCall _ _ => true
  | .checkSocialCall _ _ => true
  | .checkSchemaCall _ _ => true
  | .sinkCall _ _ _ => true
  | _ => false

/-- `true` exactly on the completion events of the duplicate-context fetch. -/
def isFetchDupEvent {α δ ι ε : Type} : Event α δ ι ε → Bool
  | .fetchDupOk => true
  | .fetchDupErr _ => true
  | _ => false

/-- The synchronous dispatch block of `initiateEvaluation`: the body of
`Object.entries(scanResults).map(async ([urlId, urlData]) => ...)`.  The
shared `config` object is threaded through; each iteration mutates its
`urlId` field, invokes the four checks (in source order: meta, body, social,
schema — meta additionally receiving the duplicate context `all`), assembles
the fresh `issues` bundle and calls `updateIssueDocument(config, issues)`.
Returns the final state of the shared config, the list of sink calls made,
and the event trace of the block. -/
def dispatchLoop {α δ ι ε : Type} (env : EvalEnv α δ ι ε) (all : δ) :
    ScanConfig → List (String × UrlData α) →
    ScanConfig × List (Submission ι) × List (Event α δ ι ε)
  | config, [] => (config, [], [])
  | config, (urlId, urlData) :: rest =>
    let config1 : ScanConfig := { config with urlId := some urlId }
    let issues : Issues ι :=
      { meta := env.checkMetaData urlData.meta all
        body := env.checkBodyData urlData.body
        social := env.checkSocialData urlData.social
        schema := env.checkSchemaData urlData.schema }
    let events : List (Event α δ ι ε) :=
      [Event.checkMetaCall urlId urlData.meta all,
       Event.checkBodyCall urlId urlData.body,
       Event.checkSocialCall urlId urlData.social,
       Event.checkSchemaCall urlId urlData.schema,
       Event.sinkCall urlId config1 issues]
    let next := dispatchLoop env all config1 rest
    (next.1, Submission.mk urlId config1 issues :: next.2.1, events ++ next.2.2)

/-- The outcome of each dispatched sink promise, in dispatch order. -/
def sinkOutcomes {α δ ι ε : Type} (env : EvalEnv α δ ι ε)
    (subs : List (Submission ι)) : List (Except ε Unit) :=
  subs.map fun s => env.updateIssueDocument s.configAtCall s.issues

/-- The reason of the first promise, in completion order `order`, that
rejects — `none` when every promise consulted resolves.  (`Promise.all`
rejects with the reason of the first rejection it observes.) -/
def firstErrorInOrder {ε : Type} (outs : List (Except ε Unit)) :
    List Nat → Option ε
  | [] => none
  | i :: rest =>
    match outs.getD i (Except.ok ()) with
    | .error e => some e
    | .ok _ => firstErrorInOrder outs rest

/-- `await Promise.all(promises)`: resolves when every promise resolves,
rejects with the first observed rejection otherwise. -/
def promiseAll {ε : Type} (outs : List (Except ε Unit)) (order : List Nat) :
    Except ε Unit :=
  match firstErrorInOrder outs order with
  | some e => Except.error e
  | none => Except.ok ()

/-- The settlement phase: the sink promises settle one by one following the
completion schedule `order`.  The first rejection makes the whole call reject
immediately (the `rejected` event), but the remaining in-flight promises are
not cancelled — their settle events still occur afterwards.  If every promise
resolves, the run resolves after the last settlement. -/
def settleTrace {α δ ι ε : Type} (subs : List (Submission ι))
    (outs : List (Except ε Unit)) :
    List Nat → Bool → List (Event α δ ι ε)
  | [], alreadyRejected =>
    if alreadyRejected then [] else [Event.resolved]
  | i :: rest, alreadyRejected =>
    if i < subs.length then
      Event.sinkSettle ((subs.map Submission.urlId).getD i "")
          (outs.getD i (Except.ok ())) ::
        (match outs.getD i (Except.ok ()), alreadyRejected with
         | .error e, false => Event.rejected e :: settleTrace subs outs rest true
         | _, _ => settleTrace subs outs rest alreadyRejected)
    else
      settleTrace subs outs rest alreadyRejected

/-- Everything observable about one run of `initiateEvaluation`. -/
structure RunResult (α δ ι ε : Type) where
  submissions : List (Submission ι)
  result : Except ε Unit
  trace : List (Event α δ ι ε)
deriving Repr, DecidableEq

/-- `initiateEvaluation(domain, dateOfScan)`, shallowly embedded.  `order`
is the completion schedule of the dispatched sink promises (the source of
runtime nondeterminism); every other step is deterministic.  The `try/catch`
of the source logs and rethrows, so a fetch failure propagates unchanged as
the rejection of the whole call, before any per-URL work. -/
def initiateEvaluation {α δ ι ε : Type} (env : EvalEnv α δ ι ε)
    (domain dateOfScan : String) (order : List Nat) : RunResult α δ ι ε :=
  let config := getConfig domain dateOfScan
  match env.getScanCollection config.domain config.dateOfScan with
  | .error e => ⟨[], Except.error e, [Event.fetchScanErr e, Event.rejected e]⟩
  | .ok scanResults =>
    match env.getDataForDuplicateCheck config.domain config.dateOfScan with
    | .error e =>
      ⟨[], Except.error e,
        [Event.fetchScanOk, Event.fetchDupErr e, Event.rejected e]⟩
    | .ok all =>
      let dispatched := dispatchLoop env all config scanResults
      let subs := dispatched.2.1
      let outs := sinkOutcomes env subs
      ⟨subs, promiseAll outs order,
        Event.fetchScanOk :: Event.fetchDupOk :: dispatched.2.2
          ++ settleTrace subs outs order false⟩

/-- A JavaScript promise value as seen without awaiting it: either still
pending (identified by an id) or an already-resolved value.  Used to
instantiate the issue-result type `ι` when showing that the evaluator stores
the raw return values of the (unawaited) check calls. -/
inductive JsPromise (ρ : Type) where
  | pending (id : Nat)
  | resolvedWith (v : ρ)
deriving Repr, DecidableEq

section Sanity

/-- A concrete environment used by the witness theorems. -/
def sampleEnv : EvalEnv Nat Nat Nat String :=
  { getScanCollection := fun _ _ =>
      Except.ok [("u1", ⟨1, 2, 3, 4⟩), ("u2", ⟨5, 6, 7, 8⟩)]
    getDataForDuplicateCheck := fun _ _ => Except.ok 9
    checkMetaData := fun m dup => m * 100 + dup
    checkBodyData := fun b => b + 10
    checkSocialData := fun s => s + 20
    checkSchemaData := fun s => s + 30
    updateIssueDocument := fun _ _ => Except.ok () }

example :
    (initiateEvaluation sampleEnv "d" "t" [0, 1]).submissions =
      [⟨"u1", ⟨"d", "t", some "u1"⟩, ⟨109, 12, 23, 34⟩⟩,
       ⟨"u2", ⟨"d", "t", some "u2"⟩, ⟨509, 16, 27, 38⟩⟩] := by decide

example : (initiateEvaluation sampleEnv "d" "t" [0, 1]).result = Except.ok () := by
  decide

/-- An environment whose scan-result fetch is unreachable. -/
def sampleScanFailEnv : EvalEnv Nat Nat Nat String :=
  { sampleEnv with getScanCollection := fun _ _ => Except.error "unreachable" }

/-- An environment whose sink rejects the write for urlId `u2`. -/
def sampleSinkFailEnv : EvalEnv Nat Nat Nat String :=
  { sampleEnv with
      updateIssueDocument := fun config _ =>
        if config.urlId = some "u2" then Except.error "write denied"
        else Except.ok () }

/-- An environment whose checks return unresolved promises, to observe that
the evaluator stores and forwards them without awaiting them. -/
def samplePromiseEnv : EvalEnv Nat Nat (JsPromise Nat) String :=
  { getScanCollection := fun _ _ =>
      Except.ok [("u1", ⟨1, 2, 3, 4⟩), ("u2", ⟨5, 6, 7, 8⟩)]
    getDataForDuplicateCheck := fun _ _ => Except.ok 9
    checkMetaData := fun _ _ => JsPromise.pending 0
    checkBodyData := fun _ => JsPromise.pending 1
    checkSocialData := fun _ => JsPromise.pending 2
    checkSchemaData := fun s => JsPromise.resolvedWith s
    updateIssueDocument := fun _ _ => Except.ok () }

end Sanity

/-!
The authentication wrappers (the unnamed source file): `register`, `login`
and `resetPassword` delegate to the identity-provider functions
`createUserWithEmailAndPassword`, `signInWithEmailAndPassword` and
`sendPasswordResetEmail`, each applied to the module-level `auth` handle.
The provider functions and the handle are opaque parameters.  The only side
effect besides the provider call is `console.log`; the wrappers are modelled
as returning the result together with the list of logged messages. -/

/-- The provider's user object.  `extra` stands for the provider-owned
fields beyond `uid` and `email`, so that returning the whole object and
projecting two fields out of it are distinguishable. -/
structure FirebaseUser (υ : Type) where
  uid : String
  email : String
  extra : υ
deriving Repr, DecidableEq

/-- The credential object returned by the provider; the wrappers read its
`user` field. -/
structure UserCredential (υ : Type) where
  user : FirebaseUser υ
deriving Repr, DecidableEq

/-- The object `login` resolves to: exactly the two fields `uid` and
`email`. -/
structure LoginResult where
  uid : String
  email : String
deriving Repr, DecidableEq

/-- `register(email, password)`: awaits the provider call, returns the
credential's `user` after logging success; on failure logs and rethrows the
provider's error unchanged. -/
def register {θ υ ε : Type}
    (createUserWithEmailAndPassword : θ → String → String → Except ε (UserCredential υ))
    (auth : θ) (email password : String) :
    Except ε (FirebaseUser υ) × List String :=
  match createUserWithEmailAndPassword auth email password with
  | .ok userCredential => (Except.ok userCredential.user, ["Registration successful"])
  | .error e => (Except.error e, ["Registration failed:"])

/-- `login(email, password)`: awaits the provider call, returns
`{uid: user.uid, email: user.email}` after logging success; on failure logs
and rethrows the provider's error unchanged. -/
def login {θ υ ε : Type}
    (signInWithEmailAndPassword : θ → String → String → Except ε (UserCredential υ))
    (auth : θ) (email password : String) :
    Except ε LoginResult × List String :=
  match signInWithEmailAndPassword auth email password with
  | .ok userCredential =>
    (Except.ok { uid := userCredential.user.uid, email := userCredential.user.email },
     ["Login successful"])
  | .error e => (Except.error e, ["Sign-in failed:"])

/-- `resetPassword(email)`: awaits the provider call, resolves to nothing
after logging success; on failure logs and rethrows the provider's error
unchanged. -/
def resetPassword {θ ε : Type}
    (sendPasswordResetEmail : θ → String → Except ε Unit)
    (auth : θ) (email : String) :
    Except ε Unit × List String :=
  match sendPasswordResetEmail auth email with
  | .ok _ => (Except.ok (), ["Password reset email sent successfully"])
  | .error e => (Except.error e, ["Password reset failed:"])


/-! ### Helper lemmas about the dispatch loop -/

/-- Closed form of the dispatched sink calls: the threaded config object
only ever has its `urlId` field overwritten, so every call sees the run's
`domain` and `dateOfScan` together with its own entry's key. -/
theorem dispatchLoop_submissions_eq {α δ ι ε : Type} (env : EvalEnv α δ ι ε)
    (all : δ) (config : ScanConfig) (rs : List (String × UrlData α)) :
    (dispatchLoop env all config rs).2.1 =
      rs.map fun p =>
        Submission.mk p.1 ⟨config.domain, config.dateOfScan, some p.1⟩
          ⟨env.checkMetaData p.2.meta all, env.checkBodyData p.2.body,
           env.checkSocialData p.2.social, env.checkSchemaData p.2.schema⟩ := by
  induction rs generalizing config with
  | nil => rfl
  | cons hd tl ih =>
    obtain ⟨urlId, urlData⟩ := hd
    simp [dispatchLoop, ih]

/-- Closed form of the dispatch-phase event trace. -/
theorem dispatchLoop_trace_eq {α δ ι ε : Type} (env : EvalEnv α δ ι ε)
    (all : δ) (config : ScanConfig) (rs : List (String × UrlData α)) :
    (dispatchLoop env all config rs).2.2 =
      rs.flatMap fun p =>
        [Event.checkMetaCall p.1 p.2.meta all,
         Event.checkBodyCall p.1 p.2.body,
         Event.checkSocialCall p.1 p.2.social,
         Event.checkSchemaCall p.1 p.2.schema,
         Event.sinkCall p.1 ⟨config.domain, config.dateOfScan, some p.1⟩
           ⟨env.checkMetaData p.2.meta all, env.checkBodyData p.2.body,
            env.checkSocialData p.2.social, env.checkSchemaData p.2.schema⟩] := by
  induction rs generalizing config with
  | nil => rfl
  | cons hd tl ih =>
    obtain ⟨urlId, urlData⟩ := hd
    simp [dispatchLoop, ih]

/-- Settlement events are never check invocations or sink dispatches. -/
theorem settleTrace_isWorkEvent_false {α δ ι ε : Type}
    (subs : List (Submission ι)) (outs : List (Except ε Unit)) :
    ∀ (order : List Nat) (b : Bool) (ev : Event α δ ι ε),
      ev ∈ settleTrace subs outs order b → isWorkEvent ev = false := by
  intro order
  induction order with
  | nil =>
    intro b ev h
    cases b with
    | true => simp [settleTrace] at h
    | false =>
      simp [settleTrace] at h
      subst h
      rfl
  | cons i rest ih =>
    intro b ev h
    simp only [settleTrace] at h
    by_cases hi : i < subs.length
    · rw [if_pos hi] at h
      rcases List.mem_cons.mp h with rfl | h
      · rfl
      · cases houtj : outs.getD i (Except.ok ()) with
        | error e =>
          rw [houtj] at h
          cases b with
          | false =>
            rcases List.mem_cons.mp h with rfl | h
            · rfl
            · exact ih true ev h
          | true => exact ih true ev h
        | ok u =>
          rw [houtj] at h
          cases b with
          | false => exact ih false ev h
          | true => exact ih true ev h
    · rw [if_neg hi] at h
      exact ih b ev h

/-- `Promise.all` over the empty promise list resolves. -/
theorem firstErrorInOrder_nil {ε : Type} :
    ∀ order : List Nat,
      firstErrorInOrder ([] : List (Except ε Unit)) order = none := by
  intro order
  induction order with
  | nil => rfl
  | cons i rest ih => simp [firstErrorInOrder, ih]

/-- `Promise.all` resolves exactly when every promise consulted by the
schedule resolves. -/
theorem firstErrorInOrder_eq_none_iff {ε : Type} (outs : List (Except ε Unit))
    (order : List Nat) :
    firstErrorInOrder outs order = none ↔
      ∀ i ∈ order, outs.getD i (Except.ok ()) = Except.ok () := by
  induction order with
  | nil => simp [firstErrorInOrder]
  | cons i rest ih =>
    simp only [firstErrorInOrder, List.mem_cons]
    cases hout : outs.getD i (Except.ok ()) with
    | error e =>
      constructor
      · intro h
        simp at h
      · intro h
        have hi := h i (Or.inl rfl)
        rw [hout] at hi
        simp at hi
    | ok u =>
      constructor
      · intro h j hj
        rcases hj with rfl | hj
        · rw [hout]
        · exact (ih.mp h) j hj
      · intro h
        exact ih.mpr fun j hj => h j (Or.inr hj)

/-- When every scheduled promise resolves, the settlement phase is the
settle events in schedule order followed by the resolution of the run. -/
theorem settleTrace_of_all_ok {α δ ι ε : Type} (subs : List (Submission ι))
    (outs : List (Except ε Unit)) (order : List Nat)
    (h : ∀ i ∈ order, outs.getD i (Except.ok ()) = Except.ok ()) :
    (settleTrace subs outs order false : List (Event α δ ι ε)) =
      ((order.filter fun i => decide (i < subs.length)).map fun i =>
        Event.sinkSettle ((subs.map Submission.urlId).getD i "")
          (outs.getD i (Except.ok ()))) ++ [Event.resolved] := by
  induction order with
  | nil => simp [settleTrace]
  | cons i rest ih =>
    have hi := h i (List.mem_cons_self i rest)
    have hrest : ∀ j ∈ rest, outs.getD j (Except.ok ()) = Except.ok () :=
      fun j hj => h j (List.mem_cons_of_mem _ hj)
    by_cases hlen : i < subs.length
    · rw [List.getD_eq_getElem?_getD] at hi
      simp only [settleTrace, if_pos hlen, List.getD_eq_getElem?_getD, hi]
      rw [ih hrest]
      simp [List.filter_cons, hlen, hi]
    · simp only [settleTrace, if_neg hlen]
      rw [ih hrest]
      simp [List.filter_cons, hlen]

/-- Every scheduled in-range promise settles, whatever happened before it:
a rejection does not cancel the remaining in-flight submissions. -/
theorem settleTrace_mem {α δ ι ε : Type} (subs : List (Submission ι))
    (outs : List (Except ε Unit)) :
    ∀ (order : List Nat) (b : Bool) (i : Nat), i ∈ order → i < subs.length →
      (Event.sinkSettle ((subs.map Submission.urlId).getD i "")
        (outs.getD i (Except.ok ())) : Event α δ ι ε) ∈
          settleTrace subs outs order b := by
  intro order
  induction order with
  | nil =>
    intro b i h
    simp at h
  | cons j rest ih =>
    intro b i hmem hlen
    rcases List.mem_cons.mp hmem with rfl | hmem
    · simp only [settleTrace, if_pos hlen]
      exact List.mem_cons_self _ _
    · by_cases hj : j < subs.length
      · simp only [settleTrace, if_pos hj]
        refine List.mem_cons_of_mem _ ?_
        cases houtj : outs.getD j (Except.ok ()) with
        | error e =>
          cases b with
          | false => exact List.mem_cons_of_mem _ (ih true i hmem hlen)
          | true => exact ih true i hmem hlen
        | ok u =>
          cases b with
          | false => exact ih false i hmem hlen
          | true => exact ih true i hmem hlen
      · simp only [settleTrace, if_neg hj]
        exact ih b i hmem hlen

/-- With no dispatched submissions the settlement phase resolves at once. -/
theorem settleTrace_nil_subs {α δ ι ε : Type} (outs : List (Except ε Unit)) :
    ∀ order : List Nat,
      (settleTrace ([] : List (Submission ι)) outs order false :
        List (Event α δ ι ε)) = [Event.resolved] := by
  intro order
  induction order with
  | nil => rfl
  | cons i rest ih => simp [settleTrace, ih]

/-- Characterization of a run whose scan-result fetch fails. -/
theorem initiateEvaluation_scan_error {α δ ι ε : Type} (env : EvalEnv α δ ι ε)
    (domain dateOfScan : String) (order : List Nat) (e : ε)
    (hscan : env.getScanCollection domain dateOfScan = Except.error e) :
    initiateEvaluation env domain dateOfScan order =
      ⟨[], Except.error e, [Event.fetchScanErr e, Event.rejected e]⟩ := by
  simp only [initiateEvaluation, getConfig, hscan]

/-- Characterization of a run whose duplicate-context fetch fails. -/
theorem initiateEvaluation_dup_error {α δ ι ε : Type} (env : EvalEnv α δ ι ε)
    (domain dateOfScan : String) (order : List Nat)
    (rs : List (String × UrlData α)) (e : ε)
    (hscan : env.getScanCollection domain dateOfScan = Except.ok rs)
    (hdup : env.getDataForDuplicateCheck domain dateOfScan = Except.error e) :
    initiateEvaluation env domain dateOfScan order =
      ⟨[], Except.error e,
        [Event.fetchScanOk, Event.fetchDupErr e, Event.rejected e]⟩ := by
  simp only [initiateEvaluation, getConfig, hscan, hdup]

/-- Characterization of a run whose two fetches succeed. -/
theorem initiateEvaluation_ok {α δ ι ε : Type} (env : EvalEnv α δ ι ε)
    (domain dateOfScan : String) (order : List Nat)
    (rs : List (String × UrlData α)) (all : δ)
    (hscan : env.getScanCollection domain dateOfScan = Except.ok rs)
    (hdup : env.getDataForDuplicateCheck domain dateOfScan = Except.ok all) :
    initiateEvaluation env domain dateOfScan order =
      ⟨(dispatchLoop env all (getConfig domain dateOfScan) rs).2.1,
       promiseAll
         (sinkOutcomes env
           (dispatchLoop env all (getConfig domain dateOfScan) rs).2.1) order,
       Event.fetchScanOk :: Event.fetchDupOk ::
         ((dispatchLoop env all (getConfig domain dateOfScan) rs).2.2 ++
          settleTrace (dispatchLoop env all (getConfig domain dateOfScan) rs).2.1
            (sinkOutcomes env
              (dispatchLoop env all (getConfig domain dateOfScan) rs).2.1)
            order false)⟩ := by
  simp only [initiateEvaluation, getConfig, hscan, hdup, List.cons_append]

/-! ### Claim theorems -/

/-- C1: for every urlId X in the fetched scan result set, the configuration
object passed to the Issue Sink (`updateIssueDocument`) for X's issue bundle
has its `urlId` field equal to X at the moment of submission, for every
completion schedule (`order`) of the concurrently dispatched per-URL tasks:
each per-URL callback runs synchronously from its `config.urlId` assignment
to its sink call, so no other iteration's write can intervene before the
call is made. -/
theorem evaluator_urlId_at_submission {α δ ι ε : Type} (env : EvalEnv α δ ι ε)
    (domain dateOfScan : String) (order : List Nat) (s : Submission ι)
    (hs : s ∈ (initiateEvaluation env domain dateOfScan order).submissions) :
    s.configAtCall.urlId = some s.urlId := by
  cases hscan : env.getScanCollection domain dateOfScan with
  | error e =>
    rw [initiateEvaluation_scan_error env domain dateOfScan order e hscan] at hs
    simp at hs
  | ok rs =>
    cases hdup : env.getDataForDuplicateCheck domain dateOfScan with
    | error e =>
      rw [initiateEvaluation_dup_error env domain dateOfScan order rs e hscan
        hdup] at hs
      simp at hs
    | ok all =>
      rw [initiateEvaluation_ok env domain dateOfScan order rs all hscan hdup,
        dispatchLoop_submissions_eq] at hs
      obtain ⟨p, hp, rfl⟩ := List.mem_map.mp hs
      rfl

theorem evaluator_urlId_at_submission_witness :
    (⟨"u1", ⟨"d", "t", some "u1"⟩, ⟨109, 12, 23, 34⟩⟩ : Submission Nat) ∈
        (initiateEvaluation sampleEnv "d" "t" [0, 1]).submissions ∧
      (⟨"u1", ⟨"d", "t", some "u1"⟩, ⟨109, 12, 23, 34⟩⟩ :
        Submission Nat).configAtCall.urlId = some "u1" :=
  ⟨by decide,
   evaluator_urlId_at_submission sampleEnv "d" "t" [0, 1]
     ⟨"u1", ⟨"d", "t", some "u1"⟩, ⟨109, 12, 23, 34⟩⟩ (by decide)⟩

/-- C2: a successful run performs exactly one sink submission per urlId of
the result set — the submitted urlIds are exactly the result set's keys in
order, hence N writes for a result set of size N, and (the keys of a JS
object being pairwise distinct) no urlId is submitted twice — and every
submitted bundle is an `Issues` record (a structure with exactly the four
fields `meta`, `body`, `social`, `schema`) built from the four check results
of its own entry. -/
theorem evaluator_one_submission_per_urlId {α δ ι ε : Type}
    (env : EvalEnv α δ ι ε) (domain dateOfScan : String) (order : List Nat)
    (rs : List (String × UrlData α)) (all : δ)
    (hscan : env.getScanCollection domain dateOfScan = Except.ok rs)
    (hdup : env.getDataForDuplicateCheck domain dateOfScan = Except.ok all)
    (_hok : (initiateEvaluation env domain dateOfScan order).result =
      Except.ok ()) :
    ((initiateEvaluation env domain dateOfScan order).submissions.map
        Submission.urlId = rs.map Prod.fst) ∧
    ((rs.map Prod.fst).Nodup →
      ∀ u ∈ rs.map Prod.fst,
        ((initiateEvaluation env domain dateOfScan order).submissions.map
          Submission.urlId).count u = 1) ∧
    (∀ s ∈ (initiateEvaluation env domain dateOfScan order).submissions,
      ∃ ud, (s.urlId, ud) ∈ rs ∧
        s.issues = ⟨env.checkMetaData ud.meta all, env.checkBodyData ud.body,
          env.checkSocialData ud.social, env.checkSchemaData ud.schema⟩) := by
  rw [initiateEvaluation_ok env domain dateOfScan order rs all hscan hdup,
    dispatchLoop_submissions_eq]
  refine ⟨?_, ?_, ?_⟩
  · rw [List.map_map]
    rfl
  · intro hnodup u hu
    rw [List.map_map]
    show (rs.map Prod.fst).count u = 1
    exact List.count_eq_one_of_mem hnodup hu
  · intro s hs
    obtain ⟨p, hp, rfl⟩ := List.mem_map.mp hs
    exact ⟨p.2, hp, rfl⟩

theorem evaluator_one_submission_per_urlId_witness :
    ((initiateEvaluation sampleEnv "d" "t" [0, 1]).submissions.map
      Submission.urlId).count "u1" = 1 := by
  have h := evaluator_one_submission_per_urlId sampleEnv "d" "t" [0, 1]
    [("u1", ⟨1, 2, 3, 4⟩), ("u2", ⟨5, 6, 7, 8⟩)] 9 rfl rfl (by decide)
  exact h.2.1 (by decide) "u1" (by decide)

/-- C3: if fetching the scan result set fails, `initiateEvaluation` rejects
with that error, zero sink submissions occur, and no check function is
invoked (the trace holds no check or sink event); the same holds if
fetching the duplicate-detection context fails. -/
theorem evaluator_fetch_failure_aborts {α δ ι ε : Type} (env : EvalEnv α δ ι ε)
    (domain dateOfScan : String) (order : List Nat) (e : ε) :
    (env.getScanCollection domain dateOfScan = Except.error e →
      (initiateEvaluation env domain dateOfScan order).result =
          Except.error e ∧
        (initiateEvaluation env domain dateOfScan order).submissions = [] ∧
        ∀ ev ∈ (initiateEvaluation env domain dateOfScan order).trace,
          isWorkEvent ev = false) ∧
    (∀ rs, env.getScanCollection domain dateOfScan = Except.ok rs →
      env.getDataForDuplicateCheck domain dateOfScan = Except.error e →
      (initiateEvaluation env domain dateOfScan order).result =
          Except.error e ∧
        (initiateEvaluation env domain dateOfScan order).submissions = [] ∧
        ∀ ev ∈ (initiateEvaluation env domain dateOfScan order).trace,
          isWorkEvent ev = false) := by
  constructor
  · intro hscan
    rw [initiateEvaluation_scan_error env domain dateOfScan order e hscan]
    refine ⟨rfl, rfl, ?_⟩
    intro ev hev
    simp only [List.mem_cons, List.not_mem_nil, or_false] at hev
    rcases hev with rfl | rfl
    · rfl
    · rfl
  · intro rs hscan hdup
    rw [initiateEvaluation_dup_error env domain dateOfScan order rs e hscan hdup]
    refine ⟨rfl, rfl, ?_⟩
    intro ev hev
    simp only [List.mem_cons, List.not_mem_nil, or_false] at hev
    rcases hev with rfl | rfl | rfl
    · rfl
    · rfl
    · rfl

theorem evaluator_fetch_failure_aborts_witness :
    (initiateEvaluation sampleScanFailEnv "d" "t" []).result =
        Except.error "unreachable" ∧
      (initiateEvaluation sampleScanFailEnv "d" "t" []).submissions = [] :=
  ⟨((evaluator_fetch_failure_aborts sampleScanFailEnv "d" "t" []
      "unreachable").1 rfl).1,
   ((evaluator_fetch_failure_aborts sampleScanFailEnv "d" "t" []
      "unreachable").1 rfl).2.1⟩

/-- `getD` of a mapped list at an in-range index. -/
theorem getD_map_of_lt {A B : Type} (f : A → B) (l : List A) (d : B) (k : Nat)
    (hk : k < l.length) :
    (l.map f).getD k d = f (l.get ⟨k, hk⟩) := by
  simp [List.getD_eq_getElem?_getD, List.getElem?_map, List.getElem?_eq_getElem, hk]

/-- `Promise.all` resolves exactly when no consulted promise rejects. -/
theorem promiseAll_eq_ok_iff {ε : Type} (outs : List (Except ε Unit))
    (order : List Nat) :
    promiseAll outs order = Except.ok () ↔
      firstErrorInOrder outs order = none := by
  unfold promiseAll
  cases h : firstErrorInOrder outs order <;> simp

/-- C4: for every (urlId, urlData) pair of the result set, the metadata
check is invoked with exactly `urlData.meta` and the duplicate context, and
the body, social and schema checks are each invoked with exactly their own
category slice and nothing else; conversely every check invocation of the
run carries exactly the slice of its own entry, and only the metadata
invocation events carry a duplicate-context argument at all. -/
theorem evaluator_check_arguments {α δ ι ε : Type} (env : EvalEnv α δ ι ε)
    (domain dateOfScan : String) (order : List Nat)
    (rs : List (String × UrlData α)) (all : δ)
    (hscan : env.getScanCollection domain dateOfScan = Except.ok rs)
    (hdup : env.getDataForDuplicateCheck domain dateOfScan = Except.ok all) :
    (∀ u ud, (u, ud) ∈ rs →
      Event.checkMetaCall u ud.meta all ∈
          (initiateEvaluation env domain dateOfScan order).trace ∧
        Event.checkBodyCall u ud.body ∈
          (initiateEvaluation env domain dateOfScan order).trace ∧
        Event.checkSocialCall u ud.social ∈
          (initiateEvaluation env domain dateOfScan order).trace ∧
        Event.checkSchemaCall u ud.schema ∈
          (initiateEvaluation env domain dateOfScan order).trace) ∧
    (∀ u m dctx,
      Event.checkMetaCall u m dctx ∈
          (initiateEvaluation env domain dateOfScan order).trace →
        ∃ ud, (u, ud) ∈ rs ∧ m = ud.meta ∧ dctx = all) ∧
    (∀ u b,
      Event.checkBodyCall u b ∈
          (initiateEvaluation env domain dateOfScan order).trace →
        ∃ ud, (u, ud) ∈ rs ∧ b = ud.body) ∧
    (∀ u b,
      Event.checkSocialCall u b ∈
          (initiateEvaluation env domain dateOfScan order).trace →
        ∃ ud, (u, ud) ∈ rs ∧ b = ud.social) ∧
    (∀ u b,
      Event.checkSchemaCall u b ∈
          (initiateEvaluation env domain dateOfScan order).trace →
        ∃ ud, (u, ud) ∈ rs ∧ b = ud.schema) := by
  rw [initiateEvaluation_ok env domain dateOfScan order rs all hscan hdup,
    dispatchLoop_trace_eq]
  refine ⟨?_, ?_, ?_, ?_, ?_⟩
  · intro u ud h
    refine ⟨?_, ?_, ?_, ?_⟩ <;>
      exact List.mem_cons_of_mem _ (List.mem_cons_of_mem _
        (List.mem_append_left _ (List.mem_flatMap.mpr ⟨(u, ud), h, by simp⟩)))
  · intro u m dctx h
    rcases List.mem_cons.mp h with h1 | h
    · simp at h1
    rcases List.mem_cons.mp h with h1 | h
    · simp at h1
    rcases List.mem_append.mp h with h | h
    · obtain ⟨p, hp, h5⟩ := List.mem_flatMap.mp h
      simp only [List.mem_cons, List.not_mem_nil, or_false] at h5
      rcases h5 with h1 | h1 | h1 | h1 | h1
      · injection h1 with e1 e2 e3
        subst e1; subst e2; subst e3
        exact ⟨p.2, hp, rfl, rfl⟩
      · simp at h1
      · simp at h1
      · simp at h1
      · simp at h1
    · have := settleTrace_isWorkEvent_false _ _ _ _ _ h
      simp [isWorkEvent] at this
  · intro u b h
    rcases List.mem_cons.mp h with h1 | h
    · simp at h1
    rcases List.mem_cons.mp h with h1 | h
    · simp at h1
    rcases List.mem_append.mp h with h | h
    · obtain ⟨p, hp, h5⟩ := List.mem_flatMap.mp h
      simp only [List.mem_cons, List.not_mem_nil, or_false] at h5
      rcases h5 with h1 | h1 | h1 | h1 | h1
      · simp at h1
      · injection h1 with e1 e2
        subst e1; subst e2
        exact ⟨p.2, hp, rfl⟩
      · simp at h1
      · simp at h1
      · simp at h1
    · have := settleTrace_isWorkEvent_false _ _ _ _ _ h
      simp [isWorkEvent] at this
  · intro u b h
    rcases List.mem_cons.mp h with h1 | h
    · simp at h1
    rcases List.mem_cons.mp h with h1 | h
    · simp at h1
    rcases List.mem_append.mp h with h | h
    · obtain ⟨p, hp, h5⟩ := List.mem_flatMap.mp h
      simp only [List.mem_cons, List.not_mem_nil, or_false] at h5
      rcases h5 with h1 | h1 | h1 | h1 | h1
      · simp at h1
      · simp at h1
      · injection h1 with e1 e2
        subst e1; subst e2
        exact ⟨p.2, hp, rfl⟩
      · simp at h1
      · simp at h1
    · have := settleTrace_isWorkEvent_false _ _ _ _ _ h
      simp [isWorkEvent] at this
  · intro u b h
    rcases List.mem_cons.mp h with h1 | h
    · simp at h1
    rcases List.mem_cons.mp h with h1 | h
    · simp at h1
    rcases List.mem_append.mp h with h | h
    · obtain ⟨p, hp, h5⟩ := List.mem_flatMap.mp h
      simp only [List.mem_cons, List.not_mem_nil, or_false] at h5
      rcases h5 with h1 | h1 | h1 | h1 | h1
      · simp at h1
      · simp at h1
      · simp at h1
      · injection h1 with e1 e2
        subst e1; subst e2
        exact ⟨p.2, hp, rfl⟩
      · simp at h1
    · have := settleTrace_isWorkEvent_false _ _ _ _ _ h
      simp [isWorkEvent] at this

theorem evaluator_check_arguments_witness :
    Event.checkMetaCall "u1" 1 9 ∈
        (initiateEvaluation sampleEnv "d" "t" [0, 1]).trace ∧
      Event.checkBodyCall "u1" 2 ∈
        (initiateEvaluation sampleEnv "d" "t" [0, 1]).trace :=
  ⟨((evaluator_check_arguments sampleEnv "d" "t" [0, 1]
      [("u1", ⟨1, 2, 3, 4⟩), ("u2", ⟨5, 6, 7, 8⟩)] 9 rfl rfl).1
      "u1" ⟨1, 2, 3, 4⟩ (by decide)).1,
   ((evaluator_check_arguments sampleEnv "d" "t" [0, 1]
      [("u1", ⟨1, 2, 3, 4⟩), ("u2", ⟨5, 6, 7, 8⟩)] 9 rfl rfl).1
      "u1" ⟨1, 2, 3, 4⟩ (by decide)).2.1⟩

/-- C5: once both fetches have succeeded, `initiateEvaluation` resolves iff
every per-URL sink submission succeeds; every dispatched submission settles
whatever the other outcomes are (a rejection does not cancel the in-flight
siblings), and on a resolving run the resolution is the very last trace
event, after every submission's settlement — the run waits for all
submissions to complete, not just for their dispatch. -/
theorem evaluator_resolves_iff_all_submissions_succeed {α δ ι ε : Type}
    (env : EvalEnv α δ ι ε) (domain dateOfScan : String) (order : List Nat)
    (rs : List (String × UrlData α)) (all : δ)
    (hscan : env.getScanCollection domain dateOfScan = Except.ok rs)
    (hdup : env.getDataForDuplicateCheck domain dateOfScan = Except.ok all)
    (hperm : order.Perm (List.range
      (initiateEvaluation env domain dateOfScan order).submissions.length)) :
    ((initiateEvaluation env domain dateOfScan order).result = Except.ok () ↔
      ∀ s ∈ (initiateEvaluation env domain dateOfScan order).submissions,
        env.updateIssueDocument s.configAtCall s.issues = Except.ok ()) ∧
    (∀ k (hk : k <
        (initiateEvaluation env domain dateOfScan order).submissions.length),
      Event.sinkSettle
          (((initiateEvaluation env domain dateOfScan order).submissions.get
            ⟨k, hk⟩).urlId)
          (env.updateIssueDocument
            (((initiateEvaluation env domain dateOfScan order).submissions.get
              ⟨k, hk⟩).configAtCall)
            (((initiateEvaluation env domain dateOfScan order).submissions.get
              ⟨k, hk⟩).issues)) ∈
        (initiateEvaluation env domain dateOfScan order).trace) ∧
    ((initiateEvaluation env domain dateOfScan order).result = Except.ok () →
      ∃ pre, (initiateEvaluation env domain dateOfScan order).trace =
          pre ++ [Event.resolved] ∧
        ∀ k (hk : k <
            (initiateEvaluation env domain dateOfScan
              order).submissions.length),
          Event.sinkSettle
              (((initiateEvaluation env domain dateOfScan order).submissions.get
                ⟨k, hk⟩).urlId)
              (env.updateIssueDocument
                (((initiateEvaluation env domain dateOfScan
                  order).submissions.get ⟨k, hk⟩).configAtCall)
                (((initiateEvaluation env domain dateOfScan
                  order).submissions.get ⟨k, hk⟩).issues)) ∈ pre) := by
  rw [initiateEvaluation_ok env domain dateOfScan order rs all hscan hdup]
    at hperm ⊢
  dsimp only at hperm ⊢
  set subs := (dispatchLoop env all (getConfig domain dateOfScan) rs).2.1
    with hsubs
  have hmemord : ∀ k, k ∈ order ↔ k < subs.length := fun k => by
    rw [hperm.mem_iff, List.mem_range]
  have hgetD : ∀ k (hk : k < subs.length),
      (sinkOutcomes env subs).getD k (Except.ok ()) =
        env.updateIssueDocument (subs.get ⟨k, hk⟩).configAtCall
          (subs.get ⟨k, hk⟩).issues := by
    intro k hk
    show (subs.map fun s =>
      env.updateIssueDocument s.configAtCall s.issues).getD k
        (Except.ok ()) = _
    exact getD_map_of_lt _ subs (Except.ok ()) k hk
  refine ⟨?_, ?_, ?_⟩
  · rw [promiseAll_eq_ok_iff, firstErrorInOrder_eq_none_iff]
    constructor
    · intro h s hs
      obtain ⟨⟨k, hk⟩, hget⟩ := List.mem_iff_get.mp hs
      have hout := h k ((hmemord k).mpr hk)
      rw [hgetD k hk] at hout
      rw [← hget]
      exact hout
    · intro h k hkord
      have hk : k < subs.length := (hmemord k).mp hkord
      rw [hgetD k hk]
      exact h _ (List.get_mem subs k hk)
  · intro k hk
    have hmem := @settleTrace_mem α δ ι ε subs (sinkOutcomes env subs) order
      false k ((hmemord k).mpr hk) hk
    rw [getD_map_of_lt Submission.urlId subs "" k hk, hgetD k hk] at hmem
    exact List.mem_cons_of_mem _ (List.mem_cons_of_mem _
      (List.mem_append_right _ hmem))
  · intro hok
    rw [promiseAll_eq_ok_iff, firstErrorInOrder_eq_none_iff] at hok
    have hst := @settleTrace_of_all_ok α δ ι ε subs (sinkOutcomes env subs)
      order hok
    refine ⟨Event.fetchScanOk :: Event.fetchDupOk ::
      ((dispatchLoop env all (getConfig domain dateOfScan) rs).2.2 ++
       ((order.filter fun i => decide (i < subs.length)).map fun i =>
         Event.sinkSettle ((subs.map Submission.urlId).getD i "")
           ((sinkOutcomes env subs).getD i (Except.ok ())))), ?_, ?_⟩
    · rw [hst]
      simp [List.append_assoc]
    · intro k hk
      have hkfil : k ∈ order.filter fun i => decide (i < subs.length) :=
        List.mem_filter.mpr ⟨(hmemord k).mpr hk, by simp [hk]⟩
      have hmem : (Event.sinkSettle ((subs.map Submission.urlId).getD k "")
          ((sinkOutcomes env subs).getD k (Except.ok ())) : Event α δ ι ε) ∈
          (order.filter fun i => decide (i < subs.length)).map fun i =>
            Event.sinkSettle ((subs.map Submission.urlId).getD i "")
              ((sinkOutcomes env subs).getD i (Except.ok ())) :=
        List.mem_map.mpr ⟨k, hkfil, rfl⟩
      rw [getD_map_of_lt Submission.urlId subs "" k hk, hgetD k hk] at hmem
      exact List.mem_cons_of_mem _ (List.mem_cons_of_mem _
        (List.mem_append_right _ hmem))

theorem evaluator_resolves_iff_all_submissions_succeed_witness :
    (initiateEvaluation sampleSinkFailEnv "d" "t" [1, 0]).result =
        Except.ok () ↔
      ∀ s ∈ (initiateEvaluation sampleSinkFailEnv "d" "t" [1, 0]).submissions,
        sampleSinkFailEnv.updateIssueDocument s.configAtCall s.issues =
          Except.ok () :=
  (evaluator_resolves_iff_all_submissions_succeed sampleSinkFailEnv "d" "t"
    [1, 0] [("u1", ⟨1, 2, 3, 4⟩), ("u2", ⟨5, 6, 7, 8⟩)] 9 rfl rfl
    (by decide)).1

/-- Splitting a list starting with two known elements around a marked
element: the mark is the first element, the second, or lies in the tail. -/
theorem two_prefix_split {A : Type} {x y ev : A} {tail pre post : List A}
    (h : x :: y :: tail = pre ++ ev :: post) :
    (pre = [] ∧ ev = x) ∨ (pre = [x] ∧ ev = y) ∨
      (∃ pre2, pre = x :: y :: pre2 ∧ pre2 ++ ev :: post = tail) := by
  rcases pre with _ | ⟨p1, pre⟩
  · simp only [List.nil_append] at h
    injection h with h1 h2
    exact Or.inl ⟨rfl, h1.symm⟩
  · rw [List.cons_append] at h
    injection h with h1 h2
    subst h1
    rcases pre with _ | ⟨p2, pre⟩
    · simp only [List.nil_append] at h2
      injection h2 with h3 h4
      exact Or.inr (Or.inl ⟨rfl, h3.symm⟩)
    · rw [List.cons_append] at h2
      injection h2 with h3 h4
      subst h3
      exact Or.inr (Or.inr ⟨pre, rfl, h4.symm⟩)

/-- C6: the two initial fetches are sequential — every completion event of
the duplicate-context fetch is preceded in the trace by the completion of
the scan-result fetch — and both fetches complete before any per-URL work:
no check invocation or sink write event ever precedes the two fetch
completions. -/
theorem evaluator_fetches_precede_work {α δ ι ε : Type} (env : EvalEnv α δ ι ε)
    (domain dateOfScan : String) (order : List Nat) :
    (∀ pre post (ev : Event α δ ι ε),
      (initiateEvaluation env domain dateOfScan order).trace =
          pre ++ ev :: post →
        isFetchDupEvent ev = true → Event.fetchScanOk ∈ pre) ∧
    (∀ pre post (ev : Event α δ ι ε),
      (initiateEvaluation env domain dateOfScan order).trace =
          pre ++ ev :: post →
        isWorkEvent ev = true →
          Event.fetchScanOk ∈ pre ∧ Event.fetchDupOk ∈ pre) := by
  cases hscan : env.getScanCollection domain dateOfScan with
  | error e =>
    rw [initiateEvaluation_scan_error env domain dateOfScan order e hscan]
    constructor <;>
    · intro pre post ev heq hev
      rcases two_prefix_split heq with ⟨rfl, rfl⟩ | ⟨rfl, rfl⟩ | ⟨pre2, rfl, h⟩
      · simp [isFetchDupEvent, isWorkEvent] at hev
      · simp [isFetchDupEvent, isWorkEvent] at hev
      · simp at h
  | ok rs =>
    cases hdup : env.getDataForDuplicateCheck domain dateOfScan with
    | error e =>
      rw [initiateEvaluation_dup_error env domain dateOfScan order rs e hscan
        hdup]
      constructor
      · intro pre post ev heq hev
        rcases two_prefix_split heq with
          ⟨rfl, rfl⟩ | ⟨rfl, rfl⟩ | ⟨pre2, rfl, h⟩
        · simp [isFetchDupEvent] at hev
        · exact List.mem_cons_self _ _
        · exact List.mem_cons_self _ _
      · intro pre post ev heq hev
        rcases two_prefix_split heq with
          ⟨rfl, rfl⟩ | ⟨rfl, rfl⟩ | ⟨pre2, rfl, h⟩
        · simp [isWorkEvent] at hev
        · simp [isWorkEvent] at hev
        · rcases pre2 with _ | ⟨q, pre3⟩
          · simp only [List.nil_append] at h
            injection h with h1 h2
            subst h1
            simp [isWorkEvent] at hev
          · rw [List.cons_append] at h
            injection h with h1 h2
            simp at h2
    | ok all =>
      rw [initiateEvaluation_ok env domain dateOfScan order rs all hscan hdup]
      constructor
      · intro pre post ev heq hev
        rcases two_prefix_split heq with
          ⟨rfl, rfl⟩ | ⟨rfl, rfl⟩ | ⟨pre2, rfl, h⟩
        · simp [isFetchDupEvent] at hev
        · exact List.mem_cons_self _ _
        · exact List.mem_cons_self _ _
      · intro pre post ev heq hev
        rcases two_prefix_split heq with
          ⟨rfl, rfl⟩ | ⟨rfl, rfl⟩ | ⟨pre2, rfl, h⟩
        · simp [isWorkEvent] at hev
        · simp [isWorkEvent] at hev
        · exact ⟨List.mem_cons_self _ _,
            List.mem_cons_of_mem _ (List.mem_cons_self _ _)⟩

theorem evaluator_fetches_precede_work_witness :
    Event.fetchScanOk ∈
        ([Event.fetchScanOk, Event.fetchDupOk] : List (Event Nat Nat Nat String)) ∧
      Event.fetchDupOk ∈
        ([Event.fetchScanOk, Event.fetchDupOk] : List (Event Nat Nat Nat String)) :=
  (evaluator_fetches_precede_work sampleEnv "d" "t" [0, 1]).2
    [Event.fetchScanOk, Event.fetchDupOk]
    [Event.checkBodyCall "u1" 2, Event.checkSocialCall "u1" 3,
     Event.checkSchemaCall "u1" 4,
     Event.sinkCall "u1" ⟨"d", "t", some "u1"⟩ ⟨109, 12, 23, 34⟩,
     Event.checkMetaCall "u2" 5 9, Event.checkBodyCall "u2" 6,
     Event.checkSocialCall "u2" 7, Event.checkSchemaCall "u2" 8,
     Event.sinkCall "u2" ⟨"d", "t", some "u2"⟩ ⟨509, 16, 27, 38⟩,
     Event.sinkSettle "u1" (Except.ok ()), Event.sinkSettle "u2" (Except.ok ()),
     Event.resolved]
    (Event.checkMetaCall "u1" 1 9) (by decide) (by decide)

/-- C9: if the fetched scan result set is empty, `initiateEvaluation`
resolves with zero sink submissions and zero check invocations, yet both
retrieval operations are still performed (their completion events appear in
the trace). -/
theorem evaluator_empty_result_set {α δ ι ε : Type} (env : EvalEnv α δ ι ε)
    (domain dateOfScan : String) (order : List Nat) (all : δ)
    (hscan : env.getScanCollection domain dateOfScan = Except.ok [])
    (hdup : env.getDataForDuplicateCheck domain dateOfScan = Except.ok all) :
    (initiateEvaluation env domain dateOfScan order).result = Except.ok () ∧
    (initiateEvaluation env domain dateOfScan order).submissions = [] ∧
    (∀ ev ∈ (initiateEvaluation env domain dateOfScan order).trace,
      isWorkEvent ev = false) ∧
    Event.fetchScanOk ∈
      (initiateEvaluation env domain dateOfScan order).trace ∧
    Event.fetchDupOk ∈
      (initiateEvaluation env domain dateOfScan order).trace := by
  rw [initiateEvaluation_ok env domain dateOfScan order [] all hscan hdup]
  dsimp only [dispatchLoop]
  have houts : sinkOutcomes env ([] : List (Submission ι)) = [] := rfl
  rw [houts, settleTrace_nil_subs]
  refine ⟨(promiseAll_eq_ok_iff _ _).mpr (firstErrorInOrder_nil order), rfl,
    ?_, ?_, ?_⟩
  · intro ev hev
    simp only [List.nil_append, List.mem_cons, List.not_mem_nil, or_false]
      at hev
    rcases hev with rfl | rfl | rfl
    · rfl
    · rfl
    · rfl
  · exact List.mem_cons_self _ _
  · exact List.mem_cons_of_mem _ (List.mem_cons_self _ _)

theorem evaluator_empty_result_set_witness :
    (initiateEvaluation
        { sampleEnv with getScanCollection := fun _ _ => Except.ok [] }
        "d" "t" []).result = Except.ok () ∧
      (initiateEvaluation
        { sampleEnv with getScanCollection := fun _ _ => Except.ok [] }
        "d" "t" []).submissions = [] :=
  ⟨(evaluator_empty_result_set
      { sampleEnv with getScanCollection := fun _ _ => Except.ok [] }
      "d" "t" [] 9 rfl rfl).1,
   (evaluator_empty_result_set
      { sampleEnv with getScanCollection := fun _ _ => Except.ok [] }
      "d" "t" [] 9 rfl rfl).2.1⟩

/-- C10: the four check functions are invoked without being awaited, and
each field of the submitted issue bundle is the direct raw return value of
the corresponding check call: instantiating the issue-result type with
`JsPromise ρ` (a promise value observed without awaiting it), whatever a
check returns — in particular a still-pending promise — is stored in the
bundle and handed to the sink unchanged, never its eventual resolution. -/
theorem evaluator_stores_raw_check_results {α δ ρ ε : Type}
    (env : EvalEnv α δ (JsPromise ρ) ε) (domain dateOfScan : String)
    (order : List Nat) (rs : List (String × UrlData α)) (all : δ)
    (hscan : env.getScanCollection domain dateOfScan = Except.ok rs)
    (hdup : env.getDataForDuplicateCheck domain dateOfScan = Except.ok all) :
    ∀ s ∈ (initiateEvaluation env domain dateOfScan order).submissions,
      ∃ ud, (s.urlId, ud) ∈ rs ∧
        s.issues.meta = env.checkMetaData ud.meta all ∧
        s.issues.body = env.checkBodyData ud.body ∧
        s.issues.social = env.checkSocialData ud.social ∧
        s.issues.schema = env.checkSchemaData ud.schema := by
  rw [initiateEvaluation_ok env domain dateOfScan order rs all hscan hdup,
    dispatchLoop_submissions_eq]
  intro s hs
  obtain ⟨p, hp, rfl⟩ := List.mem_map.mp hs
  exact ⟨p.2, hp, rfl, rfl, rfl, rfl⟩

theorem evaluator_stores_raw_check_results_witness :
    (⟨"u1", ⟨"d", "t", some "u1"⟩,
        ⟨JsPromise.pending 0, JsPromise.pending 1, JsPromise.pending 2,
         JsPromise.resolvedWith 4⟩⟩ : Submission (JsPromise Nat)) ∈
        (initiateEvaluation samplePromiseEnv "d" "t" [0, 1]).submissions ∧
      ∃ ud, (("u1" : String), ud) ∈
            [(("u1" : String), (⟨1, 2, 3, 4⟩ : UrlData Nat)),
             ("u2", ⟨5, 6, 7, 8⟩)] ∧
          JsPromise.pending 0 = samplePromiseEnv.checkMetaData ud.meta 9 ∧
          JsPromise.pending 1 = samplePromiseEnv.checkBodyData ud.body ∧
          JsPromise.pending 2 = samplePromiseEnv.checkSocialData ud.social ∧
          JsPromise.resolvedWith 4 = samplePromiseEnv.checkSchemaData ud.schema :=
  ⟨by decide,
   evaluator_stores_raw_check_results samplePromiseEnv "d" "t" [0, 1]
     [("u1", ⟨1, 2, 3, 4⟩), ("u2", ⟨5, 6, 7, 8⟩)] 9 rfl rfl
     ⟨"u1", ⟨"d", "t", some "u1"⟩,
      ⟨JsPromise.pending 0, JsPromise.pending 1, JsPromise.pending 2,
       JsPromise.resolvedWith 4⟩⟩ (by decide)⟩

/-- C7: each authentication wrapper (`register`, `login`, `resetPassword`),
when the delegated identity-provider call fails, rethrows exactly the
provider's error object unchanged, and the only other effect on the failure
path is the log line — the returned effect list is exactly the one failure
log message. -/
theorem auth_rethrows_provider_error {θ υ ε : Type}
    (createUserWithEmailAndPassword :
      θ → String → String → Except ε (UserCredential υ))
    (signInWithEmailAndPassword :
      θ → String → String → Except ε (UserCredential υ))
    (sendPasswordResetEmail : θ → String → Except ε Unit)
    (auth : θ) (email password : String) (e : ε) :
    (createUserWithEmailAndPassword auth email password = Except.error e →
      register createUserWithEmailAndPassword auth email password =
        (Except.error e, ["Registration failed:"])) ∧
    (signInWithEmailAndPassword auth email password = Except.error e →
      login signInWithEmailAndPassword auth email password =
        (Except.error e, ["Sign-in failed:"])) ∧
    (sendPasswordResetEmail auth email = Except.error e →
      resetPassword sendPasswordResetEmail auth email =
        (Except.error e, ["Password reset failed:"])) := by
  refine ⟨?_, ?_, ?_⟩
  · intro h
    simp [register, h]
  · intro h
    simp [login, h]
  · intro h
    simp [resetPassword, h]

theorem auth_rethrows_provider_error_witness :
    register
        (fun (_ : Unit) (_ _ : String) =>
          (Except.error "denied" : Except String (UserCredential Unit)))
        () "a@b.c" "pw" =
      (Except.error "denied", ["Registration failed:"]) :=
  (auth_rethrows_provider_error
    (fun (_ : Unit) (_ _ : String) =>
      (Except.error "denied" : Except String (UserCredential Unit)))
    (fun (_ : Unit) (_ _ : String) =>
      (Except.error "denied" : Except String (UserCredential Unit)))
    (fun (_ : Unit) (_ : String) =>
      (Except.error "denied" : Except String Unit))
    () "a@b.c" "pw" "denied").1 rfl

/-- C8: on provider success, `login` resolves to an object with exactly the
two fields `uid` and `email` taken from the provider's returned user
(`LoginResult` has exactly those two fields), while `register` resolves to
the provider's user object itself, extra provider-owned fields included. -/
theorem auth_success_shapes {θ υ ε : Type}
    (createUserWithEmailAndPassword :
      θ → String → String → Except ε (UserCredential υ))
    (signInWithEmailAndPassword :
      θ → String → String → Except ε (UserCredential υ))
    (auth : θ) (email password : String) (cred : UserCredential υ) :
    (signInWithEmailAndPassword auth email password = Except.ok cred →
      login signInWithEmailAndPassword auth email password =
        (Except.ok { uid := cred.user.uid, email := cred.user.email },
         ["Login successful"])) ∧
    (createUserWithEmailAndPassword auth email password = Except.ok cred →
      register createUserWithEmailAndPassword auth email password =
        (Except.ok cred.user, ["Registration successful"])) := by
  constructor
  · intro h
    simp [login, h]
  · intro h
    simp [register, h]

theorem auth_success_shapes_witness :
    login
        (fun (_ : Unit) (_ _ : String) =>
          (Except.ok ⟨⟨"uid1", "a@b.c", ()⟩⟩ :
            Except String (UserCredential Unit)))
        () "a@b.c" "pw" =
      (Except.ok { uid := "uid1", email := "a@b.c" }, ["Login successful"]) :=
  (auth_success_shapes
    (fun (_ : Unit) (_ _ : String) =>
      (Except.ok ⟨⟨"uid1", "a@b.c", ()⟩⟩ :
        Except String (UserCredential Unit)))
    (fun (_ : Unit) (_ _ : String) =>
      (Except.ok ⟨⟨"uid1", "a@b.c", ()⟩⟩ :
        Except String (UserCredential Unit)))
    () "a@b.c" "pw" ⟨⟨"uid1", "a@b.c", ()⟩⟩).1 rfl
